import Mathlib

/-!
Shallow embedding of the COS sync/download tool (sync_detector.py,
index_manager.py, cos_enhanced_downloader.py, cos_objects_downloader.py)
and proofs of the specification claims about it.

Python dicts over string keys are modelled as association lists built by
insertion-order-preserving insert (`dictInsert`), matching CPython dict
semantics.  Machine I/O (the COS client, the filesystem, the SQLite store)
is modelled by explicit state passing: the client is a function from the
request marker to a response, the index is a list of records, and the
outcome of each transfer attempt is an oracle `Nat → Bool`.
-/

set_option autoImplicit false

namespace CosSync

/-- A remote COS object as returned in a listing page: the fields the
program reads (`obj["Key"]`, `obj["Size"]`, `obj["ETag"]`). -/
structure RemoteObject where
  key : String
  size : Nat
  etag : String
  deriving DecidableEq, Repr

/-- A row of the `local_files` SQLite table of index_manager.py. -/
structure IndexRecord where
  file_path : String
  file_size : Nat
  last_modified : String
  md5_hash : String
  download_time : String
  cos_key : String
  etag : String
  deriving DecidableEq, Repr

/-- Python `s.strip(c)` on a list of characters: remove every leading and
trailing occurrence of `c`. -/
def stripChar (c : Char) (s : List Char) : List Char :=
  ((s.dropWhile (· == c)).reverse.dropWhile (· == c)).reverse

/-- Python `etag.strip('"')` from sync_detector.py line 90 and
cos_enhanced_downloader.py line 301. -/
def strip_quotes (s : String) : String :=
  String.mk (stripChar '\"' s.data)

/-- CPython dict insertion: update the value in place when the key is
already present, otherwise append the pair at the end. -/
def dictInsert {α : Type} (k : String) (v : α) : List (String × α) → List (String × α)
  | [] => [(k, v)]
  | p :: rest => if p.1 = k then (k, v) :: rest else p :: dictInsert k v rest

/-- A dict comprehension `{keyOf x: x for x in xs}`. -/
def dictOf {α β : Type} (f : β → String × α) (xs : List β) : List (String × α) :=
  xs.foldl (fun d x => dictInsert (f x).1 (f x).2 d) []

/-- Python `d[k]` / `k in d` lookup. -/
def dictGet {α : Type} (d : List (String × α)) (k : String) : Option α :=
  (d.find? (fun p => p.1 == k)).map Prod.snd

/-- The diff produced by `SyncDetector.compare_objects`. -/
structure SyncDiff where
  new : List RemoteObject
  updated : List RemoteObject
  deleted : List IndexRecord
  deriving DecidableEq, Repr

/-- `SyncDetector.compare_objects` (sync_detector.py lines 66-98).  The two
loops append each entry exactly when its branch condition holds, in map
iteration order, so they are the corresponding filters of the maps. -/
def compare_objects (remote_objects : List RemoteObject)
    (local_files : List IndexRecord) : SyncDiff :=
  let remote_map := dictOf (fun o => (o.key, o)) remote_objects
  let local_map := dictOf (fun f => (f.cos_key, f)) local_files
  let new_files := (remote_map.filter
    (fun kv => (dictGet local_map kv.1).isNone)).map Prod.snd
  let updated_files := (remote_map.filter (fun kv =>
    match dictGet local_map kv.1 with
    | some f => f.etag != strip_quotes kv.2.etag
    | none => false)).map Prod.snd
  let deleted_files := (local_map.filter
    (fun kv => (dictGet remote_map kv.1).isNone)).map Prod.snd
  { new := new_files, updated := updated_files, deleted := deleted_files }

/-- `IndexManager.file_exists` (index_manager.py lines 126-142): some row
has exactly this (cos_key, etag) pair. -/
def file_exists (index : List IndexRecord) (cos_key : String) (etag : String) : Bool :=
  index.any (fun r => r.cos_key == cos_key && r.etag == etag)

/-- `IndexManager.add_file` (index_manager.py lines 48-86):
`INSERT OR REPLACE` keyed by the `file_path` primary key — the conflicting
row, if any, is deleted and the new row inserted.  `download_time` is set
to the current time `now` at call time. -/
def add_file (now : String) (index : List IndexRecord) (file_path : String)
    (file_size : Nat) (last_modified : String) (md5_hash : String)
    (cos_key : String) (etag : String) : List IndexRecord :=
  let row : IndexRecord :=
    { file_path := file_path, file_size := file_size,
      last_modified := last_modified, md5_hash := md5_hash,
      download_time := now, cos_key := cos_key, etag := etag }
  index.filter (fun r => r.file_path != file_path) ++ [row]

/-- `IndexManager.get_file` (index_manager.py lines 88-101): `SELECT *
WHERE file_path = ?` with `fetchone`. -/
def get_file (index : List IndexRecord) (file_path : String) : Option IndexRecord :=
  index.find? (fun r => r.file_path == file_path)

/-! ### Dictionary lemmas: under unique keys a dict is the key-value map -/

theorem dictInsert_of_not_mem {α : Type} (k : String) (v : α)
    (d : List (String × α)) (h : ∀ p ∈ d, p.1 ≠ k) :
    dictInsert k v d = d ++ [(k, v)] := by
  induction d with
  | nil => rfl
  | cons p rest ih =>
    have hp : p.1 ≠ k := h p (by simp)
    simp only [dictInsert, if_neg hp, List.cons_append, List.cons.injEq, true_and]
    exact ih fun q hq => h q (by simp [hq])

theorem foldl_dictInsert {α β : Type} (f : β → String × α) (xs : List β)
    (d : List (String × α))
    (hd : ∀ x ∈ xs, ∀ p ∈ d, p.1 ≠ (f x).1)
    (hx : xs.Pairwise (fun a b => (f a).1 ≠ (f b).1)) :
    xs.foldl (fun d x => dictInsert (f x).1 (f x).2 d) d = d ++ xs.map f := by
  induction xs generalizing d with
  | nil => simp
  | cons x xs ih =>
    simp only [List.foldl_cons, List.map_cons]
    rw [dictInsert_of_not_mem _ _ _ (fun p hp => hd x (by simp) p hp)]
    rw [ih]
    · simp
    · intro y hy p hp
      rcases List.mem_append.1 hp with h | h
      · exact hd y (List.mem_cons_of_mem _ hy) p h
      · have hpx : p = (f x, ()).1 := by
          simp at h; subst h; rfl
        have := (List.pairwise_cons.1 hx).1 y hy
        simp at h; subst h
        exact this
    · exact (List.pairwise_cons.1 hx).2

theorem dictOf_eq_map {α β : Type} (f : β → String × α) (xs : List β)
    (hx : xs.Pairwise (fun a b => (f a).1 ≠ (f b).1)) :
    dictOf f xs = xs.map f := by
  unfold dictOf
  rw [foldl_dictInsert f xs [] (by simp) hx]
  simp

theorem find?_keyed {α : Type} (g : α → String) (l : List α) (k : String) :
    (l.map (fun a => (g a, a))).find? (fun p => p.1 == k)
      = (l.find? (fun a => g a == k)).map (fun a => (g a, a)) := by
  induction l with
  | nil => rfl
  | cons x xs ih =>
    by_cases h : g x == k <;> simp [List.find?_cons, h, ih]

theorem dictGet_keyed {α : Type} (g : α → String) (l : List α) (k : String) :
    dictGet (l.map (fun a => (g a, a))) k = l.find? (fun a => g a == k) := by
  unfold dictGet
  rw [find?_keyed]
  cases l.find? (fun a => g a == k) <;> rfl

theorem filter_map_proj {α : Type} (g : α → String) (p : String × α → Bool)
    (l : List α) :
    ((l.map (fun a => (g a, a))).filter p).map Prod.snd
      = l.filter (fun a => p (g a, a)) := by
  induction l with
  | nil => rfl
  | cons x xs ih =>
    by_cases h : p (g x, x) <;> simp [h, ih]

theorem find?_eq_some_of_unique {α : Type} (g : α → String) (l : List α)
    (hl : l.Pairwise (fun a b => g a ≠ g b)) (f : α) (hf : f ∈ l) (k : String)
    (hk : g f = k) : l.find? (fun a => g a == k) = some f := by
  induction l with
  | nil => exact absurd hf (List.not_mem_nil f)
  | cons x xs ih =>
    rcases List.mem_cons.1 hf with rfl | hmem
    · simp [List.find?_cons, hk]
    · have hxb : (g x == k) = false := by
        simp only [beq_eq_false_iff_ne, ne_eq]
        intro hgx
        exact (List.pairwise_cons.1 hl).1 f hmem (hgx.trans hk.symm)
      simp only [List.find?_cons, hxb]
      exact ih (List.pairwise_cons.1 hl).2 hmem

theorem compare_new_eq (R : List RemoteObject) (L : List IndexRecord)
    (hR : R.Pairwise (fun a b => a.key ≠ b.key))
    (hL : L.Pairwise (fun a b => a.cos_key ≠ b.cos_key)) :
    (compare_objects R L).new
      = R.filter (fun o => (L.find? (fun f => f.cos_key == o.key)).isNone) := by
  have hmapR : dictOf (fun o : RemoteObject => (o.key, o)) R
      = R.map (fun o => (o.key, o)) := dictOf_eq_map _ _ hR
  have hmapL : dictOf (fun f : IndexRecord => (f.cos_key, f)) L
      = L.map (fun f => (f.cos_key, f)) := dictOf_eq_map _ _ hL
  unfold compare_objects
  simp only [hmapR, hmapL]
  rw [filter_map_proj (fun o : RemoteObject => o.key)]
  simp only [dictGet_keyed]

theorem compare_updated_eq (R : List RemoteObject) (L : List IndexRecord)
    (hR : R.Pairwise (fun a b => a.key ≠ b.key))
    (hL : L.Pairwise (fun a b => a.cos_key ≠ b.cos_key)) :
    (compare_objects R L).updated
      = R.filter (fun o =>
          match L.find? (fun f => f.cos_key == o.key) with
          | some f => f.etag != strip_quotes o.etag
          | none => false) := by
  have hmapR : dictOf (fun o : RemoteObject => (o.key, o)) R
      = R.map (fun o => (o.key, o)) := dictOf_eq_map _ _ hR
  have hmapL : dictOf (fun f : IndexRecord => (f.cos_key, f)) L
      = L.map (fun f => (f.cos_key, f)) := dictOf_eq_map _ _ hL
  unfold compare_objects
  simp only [hmapR, hmapL]
  rw [filter_map_proj (fun o : RemoteObject => o.key)]
  simp only [dictGet_keyed]

theorem compare_deleted_eq (R : List RemoteObject) (L : List IndexRecord)
    (hR : R.Pairwise (fun a b => a.key ≠ b.key))
    (hL : L.Pairwise (fun a b => a.cos_key ≠ b.cos_key)) :
    (compare_objects R L).deleted
      = L.filter (fun f => (R.find? (fun o => o.key == f.cos_key)).isNone) := by
  have hmapR : dictOf (fun o : RemoteObject => (o.key, o)) R
      = R.map (fun o => (o.key, o)) := dictOf_eq_map _ _ hR
  have hmapL : dictOf (fun f : IndexRecord => (f.cos_key, f)) L
      = L.map (fun f => (f.cos_key, f)) := dictOf_eq_map _ _ hL
  unfold compare_objects
  simp only [hmapR, hmapL]
  rw [filter_map_proj (fun f : IndexRecord => f.cos_key)]
  simp only [dictGet_keyed]

/-- C1: for remote objects with unique keys and local records with unique
remote keys, `compare_objects` classifies each remote object into exactly
one of new / updated / unchanged: new iff no local record carries its key,
updated iff the matching local record's etag differs from the quote-
stripped remote ETag, unchanged otherwise (a matching record with equal
etag, excluded from the output); deleted is exactly the local records
whose cos_key matches no remote key. -/
theorem compare_objects_partition (R : List RemoteObject) (L : List IndexRecord)
    (hR : R.Pairwise (fun a b => a.key ≠ b.key))
    (hL : L.Pairwise (fun a b => a.cos_key ≠ b.cos_key)) :
    (∀ o, o ∈ (compare_objects R L).new ↔
        (o ∈ R ∧ ∀ f ∈ L, f.cos_key ≠ o.key)) ∧
    (∀ o, o ∈ (compare_objects R L).updated ↔
        (o ∈ R ∧ ∃ f ∈ L, f.cos_key = o.key ∧ f.etag ≠ strip_quotes o.etag)) ∧
    (∀ o, ¬ (o ∈ (compare_objects R L).new ∧ o ∈ (compare_objects R L).updated)) ∧
    (∀ o ∈ R, o ∉ (compare_objects R L).new → o ∉ (compare_objects R L).updated →
        ∃ f ∈ L, f.cos_key = o.key ∧ f.etag = strip_quotes o.etag) ∧
    (∀ f, f ∈ (compare_objects R L).deleted ↔
        (f ∈ L ∧ ∀ o ∈ R, o.key ≠ f.cos_key)) := by
  have hnew := compare_new_eq R L hR hL
  have hupd := compare_updated_eq R L hR hL
  have hdel := compare_deleted_eq R L hR hL
  have char_new : ∀ o, o ∈ (compare_objects R L).new ↔
      (o ∈ R ∧ ∀ f ∈ L, f.cos_key ≠ o.key) := by
    intro o
    rw [hnew, List.mem_filter]
    simp [Option.isNone_iff_eq_none, List.find?_eq_none]
  have char_upd : ∀ o, o ∈ (compare_objects R L).updated ↔
      (o ∈ R ∧ ∃ f ∈ L, f.cos_key = o.key ∧ f.etag ≠ strip_quotes o.etag) := by
    intro o
    rw [hupd, List.mem_filter]
    constructor
    · rintro ⟨hoR, hp⟩
      refine ⟨hoR, ?_⟩
      cases hfind : L.find? (fun f => f.cos_key == o.key) with
      | none => rw [hfind] at hp; simp at hp
      | some f =>
        rw [hfind] at hp
        have hfL : f ∈ L := List.mem_of_find?_eq_some hfind
        have hfk : f.cos_key = o.key := by
          have := List.find?_some hfind
          simpa using this
        exact ⟨f, hfL, hfk, by simpa using hp⟩
    · rintro ⟨hoR, f, hfL, hfk, hfe⟩
      refine ⟨hoR, ?_⟩
      rw [find?_eq_some_of_unique (fun r => r.cos_key) L hL f hfL o.key hfk]
      simpa using hfe
  have char_del : ∀ f, f ∈ (compare_objects R L).deleted ↔
      (f ∈ L ∧ ∀ o ∈ R, o.key ≠ f.cos_key) := by
    intro f
    rw [hdel, List.mem_filter]
    simp [Option.isNone_iff_eq_none, List.find?_eq_none]
  refine ⟨char_new, char_upd, ?_, ?_, char_del⟩
  · rintro o ⟨h1, h2⟩
    obtain ⟨-, hno⟩ := (char_new o).1 h1
    obtain ⟨-, f, hfL, hfk, -⟩ := (char_upd o).1 h2
    exact hno f hfL hfk
  · intro o hoR h1 h2
    have hex : ∃ f ∈ L, f.cos_key = o.key := by
      by_contra hnone
      push_neg at hnone
      exact h1 ((char_new o).2 ⟨hoR, hnone⟩)
    obtain ⟨f, hfL, hfk⟩ := hex
    refine ⟨f, hfL, hfk, ?_⟩
    by_contra hne
    exact h2 ((char_upd o).2 ⟨hoR, f, hfL, hfk, hne⟩)

/-- Concrete data for the C1 witness. -/
def wRemoteA : RemoteObject := { key := "a.txt", size := 10, etag := "\"x\"" }

/-- Concrete data for the C1 witness. -/
def wRemoteB : RemoteObject := { key := "b.txt", size := 20, etag := "\"y\"" }

/-- Concrete data for the C1 witness. -/
def wLocalA : IndexRecord :=
  { file_path := "downloads/a.txt", file_size := 10, last_modified := "t",
    md5_hash := "m", download_time := "d", cos_key := "a.txt", etag := "x" }

theorem compare_objects_partition_witness :
    ¬ (wRemoteA ∈ (compare_objects [wRemoteA, wRemoteB] [wLocalA]).new ∧
       wRemoteA ∈ (compare_objects [wRemoteA, wRemoteB] [wLocalA]).updated) :=
  ((compare_objects_partition [wRemoteA, wRemoteB] [wLocalA]
      (by decide) (by decide)).2.2.1) wRemoteA

/-! ### The single-file download task (cos_enhanced_downloader.py 124-188) -/

/-- The ambient machine state a download task reads: the outcome of the
i-th `client.download_file` invocation (`true` = the call returns,
`false` = it raises CosServiceError/OSError), the hash computed from the
downloaded file, the file's mtime rendered to ISO-8601, and the current
time stamped into the index by `add_file`. -/
structure DownloadEnv where
  transfer : Nat → Bool
  md5 : String
  mtimeIso : String
  now : String

/-- The retry loop of `_download_single_file` (cos_enhanced_downloader.py
lines 152-188), from loop variable `attempt` on: each iteration invokes
the transfer once; on success it writes the index record and returns
"success"; on failure it sleeps `2 ** attempt` and continues, except on
the last attempt where the exception propagates to the outer handler
which returns "failed".  The result carries the final index, the number
of transfer invocations, and the list of sleep durations in order. -/
def download_attempts (env : DownloadEnv) (retry_times : Nat) (cos_key : String)
    (local_path : String) (file_size : Nat) (etag : String) (attempt : Nat)
    (index : List IndexRecord) (calls : Nat) (sleeps : List Nat) :
    String × List IndexRecord × Nat × List Nat :=
  if h : attempt < retry_times then
    if env.transfer attempt then
      ("success",
       add_file env.now index local_path file_size env.mtimeIso env.md5 cos_key etag,
       calls + 1, sleeps)
    else if attempt < retry_times - 1 then
      download_attempts env retry_times cos_key local_path file_size etag
        (attempt + 1) index (calls + 1) (sleeps ++ [2 ^ attempt])
    else ("failed", index, calls + 1, sleeps)
  else ("failed", index, calls, sleeps)
termination_by retry_times - attempt
decreasing_by omega

/-- `EnhancedCOSDownloader._download_single_file` (cos_enhanced_downloader.py
lines 124-188).  `localSize` is `some n` when the destination path exists
on disk with byte length `n`, `none` when it does not exist. -/
def download_single_file (env : DownloadEnv) (retry_times : Nat)
    (index : List IndexRecord) (cos_key : String) (local_path : String)
    (localSize : Option Nat) (file_size : Nat) (etag : String) :
    String × List IndexRecord × Nat × List Nat :=
  if file_exists index cos_key etag then ("skipped", index, 0, [])
  else if localSize == some file_size then ("skipped", index, 0, [])
  else download_attempts env retry_times cos_key local_path file_size etag 0 index 0 []

/-- C2: when `file_exists(cos_key, etag)` holds — some index record has
exactly that pair — the task returns "skipped", the transfer capability
is invoked zero times, and the index is untouched. -/
theorem file_exists_skips_download (env : DownloadEnv) (retry_times : Nat)
    (index : List IndexRecord) (cos_key : String) (local_path : String)
    (localSize : Option Nat) (file_size : Nat) (etag : String)
    (h : file_exists index cos_key etag = true) :
    download_single_file env retry_times index cos_key local_path localSize
      file_size etag = ("skipped", index, 0, []) := by
  unfold download_single_file
  rw [if_pos h]

/-- Environment for concrete download witnesses. -/
def wEnv : DownloadEnv :=
  { transfer := fun _ => true, md5 := "m", mtimeIso := "t", now := "d" }

theorem file_exists_skips_download_witness :
    download_single_file wEnv 3 [wLocalA] "a.txt" "downloads/a.txt" none 10 "x"
      = ("skipped", [wLocalA], 0, []) :=
  file_exists_skips_download wEnv 3 [wLocalA] "a.txt" "downloads/a.txt"
    none 10 "x" (by decide)

/-! ### The index upsert (index_manager.py 48-101) -/

/-- C9: `add_file` is an upsert keyed by the local path: afterwards
`get_file` returns a record holding exactly the supplied fields with
`download_time` set to the call time, the index holds exactly one record
for that path, path-uniqueness of the index is preserved, and repeating
the same `add_file` call changes nothing further. -/
theorem add_file_upsert (now : String) (index : List IndexRecord) (p : String)
    (size : Nat) (lm md5h ck et : String) :
    get_file (add_file now index p size lm md5h ck et) p
      = some { file_path := p, file_size := size, last_modified := lm,
               md5_hash := md5h, download_time := now, cos_key := ck, etag := et } ∧
    (add_file now index p size lm md5h ck et).countP (fun r => r.file_path == p) = 1 ∧
    (index.Pairwise (fun a b => a.file_path ≠ b.file_path) →
      (add_file now index p size lm md5h ck et).Pairwise
        (fun a b => a.file_path ≠ b.file_path)) ∧
    add_file now (add_file now index p size lm md5h ck et) p size lm md5h ck et
      = add_file now index p size lm md5h ck et := by
  have hflt : ∀ r ∈ index.filter (fun r => r.file_path != p), r.file_path ≠ p := by
    intro r hr
    have := (List.mem_filter.1 hr).2
    simpa using this
  refine ⟨?_, ?_, ?_, ?_⟩
  · unfold get_file add_file
    rw [List.find?_append]
    have h1 : (index.filter (fun r => r.file_path != p)).find?
        (fun r => r.file_path == p) = none := by
      rw [List.find?_eq_none]
      intro r hr
      simpa using hflt r hr
    rw [h1]
    simp
  · unfold add_file
    rw [List.countP_append]
    have h1 : (index.filter (fun r => r.file_path != p)).countP
        (fun r => r.file_path == p) = 0 := by
      rw [List.countP_eq_zero]
      intro r hr
      simpa using hflt r hr
    rw [h1]
    simp
  · intro hpw
    unfold add_file
    rw [List.pairwise_append]
    refine ⟨hpw.filter _, by simp, ?_⟩
    intro a ha b hb
    simp only [List.mem_singleton] at hb
    subst hb
    exact hflt a ha
  · unfold add_file
    rw [List.filter_append]
    have h1 : (index.filter (fun r => r.file_path != p)).filter
        (fun r => r.file_path != p) = index.filter (fun r => r.file_path != p) := by
      rw [List.filter_eq_self]
      intro r hr
      exact (List.mem_filter.1 hr).2
    rw [h1]
    simp

theorem add_file_upsert_witness :
    get_file (add_file "d" [wLocalA] "downloads/b.txt" 20 "t" "m" "b.txt" "y")
        "downloads/b.txt"
      = some { file_path := "downloads/b.txt", file_size := 20,
               last_modified := "t", md5_hash := "m", download_time := "d",
               cos_key := "b.txt", etag := "y" } :=
  (add_file_upsert "d" [wLocalA] "downloads/b.txt" 20 "t" "m" "b.txt" "y").1

/-! ### Retry and backoff (cos_enhanced_downloader.py 152-188) -/

theorem download_attempts_success (env : DownloadEnv) (retry_times : Nat)
    (cos_key : String) (local_path : String) (file_size : Nat) (etag : String)
    (index : List IndexRecord) :
    ∀ (n a : Nat) (calls : Nat) (sleeps : List Nat),
      a + n < retry_times →
      (∀ k, a ≤ k → k < a + n → env.transfer k = false) →
      env.transfer (a + n) = true →
      download_attempts env retry_times cos_key local_path file_size etag a
          index calls sleeps
        = ("success",
           add_file env.now index local_path file_size env.mtimeIso env.md5
             cos_key etag,
           calls + n + 1,
           sleeps ++ (List.range' a n).map (fun k => 2 ^ k)) := by
  intro n
  induction n with
  | zero =>
    intro a calls sleeps hlt hfail hsucc
    unfold download_attempts
    rw [dif_pos (by omega)]
    rw [if_pos (by simpa using hsucc)]
    simp
  | succ n ih =>
    intro a calls sleeps hlt hfail hsucc
    unfold download_attempts
    rw [dif_pos (by omega)]
    rw [if_neg (by simp [hfail a (Nat.le_refl a) (by omega)])]
    rw [if_pos (by omega)]
    rw [ih (a + 1) (calls + 1) (sleeps ++ [2 ^ a]) (by omega)
          (fun k h1 h2 => hfail k (by omega) (by omega))
          (by have : a + 1 + n = a + (n + 1) := by omega
              rw [this]; exact hsucc)]
    simp only [List.range', List.map_cons, List.append_assoc, List.cons_append,
      List.nil_append, Prod.mk.injEq, true_and]
    exact ⟨by omega, trivial⟩

theorem download_attempts_all_fail (env : DownloadEnv) (retry_times : Nat)
    (cos_key : String) (local_path : String) (file_size : Nat) (etag : String)
    (index : List IndexRecord) (hfail : ∀ k, env.transfer k = false) :
    ∀ (n a : Nat) (calls : Nat) (sleeps : List Nat),
      a + n = retry_times →
      download_attempts env retry_times cos_key local_path file_size etag a
          index calls sleeps
        = ("failed", index, calls + n,
           sleeps ++ (List.range' a (n - 1)).map (fun k => 2 ^ k)) := by
  intro n
  induction n with
  | zero =>
    intro a calls sleeps ha
    unfold download_attempts
    rw [dif_neg (by omega)]
    simp
  | succ n ih =>
    intro a calls sleeps ha
    unfold download_attempts
    rw [dif_pos (by omega)]
    rw [if_neg (by simp [hfail a])]
    cases n with
    | zero =>
      rw [if_neg (by omega)]
      simp
    | succ m =>
      rw [if_pos (by omega)]
      rw [ih (a + 1) (calls + 1) (sleeps ++ [2 ^ a]) (by omega)]
      simp only [Nat.succ_sub_one, List.range', List.map_cons, List.append_assoc,
        List.cons_append, List.nil_append, Prod.mk.injEq, true_and]
      exact ⟨by omega, trivial⟩

/-- C4: with the dedupe and local-presence gates both open, a transfer
that fails deterministically on the first N−1 attempts and succeeds on
attempt N with N ≤ retry_times makes the task return "success" after
exactly N transfer invocations, sleeping 2^(k−1) time units between
attempt k and attempt k+1 (1, 2, 4, …), and upserts the index record. -/
theorem retry_success_after_failures (env : DownloadEnv) (retry_times : Nat)
    (index : List IndexRecord) (cos_key : String) (local_path : String)
    (localSize : Option Nat) (file_size : Nat) (etag : String) (N : Nat)
    (hidx : file_exists index cos_key etag = false)
    (hloc : (localSize == some file_size) = false)
    (hN1 : 1 ≤ N) (hN2 : N ≤ retry_times)
    (hfail : ∀ k, k < N - 1 → env.transfer k = false)
    (hsucc : env.transfer (N - 1) = true) :
    download_single_file env retry_times index cos_key local_path localSize
        file_size etag
      = ("success",
         add_file env.now index local_path file_size env.mtimeIso env.md5
           cos_key etag,
         N, (List.range (N - 1)).map (fun k => 2 ^ k)) := by
  unfold download_single_file
  rw [if_neg (by simp [hidx]), if_neg (by simp [hloc])]
  rw [download_attempts_success env retry_times cos_key local_path file_size etag
        index (N - 1) 0 0 [] (by omega)
        (fun k h1 h2 => hfail k (by omega)) (by simpa using hsucc)]
  simp only [List.nil_append, List.range_eq_range', Prod.mk.injEq, true_and]
  exact ⟨by omega, trivial⟩

/-- C5: with the gates open and a transfer that fails on every attempt,
the task returns "failed" (never "success") after exactly retry_times
transfer invocations, and the index is left unchanged — no record is
created or updated. -/
theorem retry_exhaustion_failed (env : DownloadEnv) (retry_times : Nat)
    (index : List IndexRecord) (cos_key : String) (local_path : String)
    (localSize : Option Nat) (file_size : Nat) (etag : String)
    (hidx : file_exists index cos_key etag = false)
    (hloc : (localSize == some file_size) = false)
    (hfail : ∀ k, env.transfer k = false) :
    download_single_file env retry_times index cos_key local_path localSize
        file_size etag
      = ("failed", index, retry_times,
         (List.range (retry_times - 1)).map (fun k => 2 ^ k)) := by
  unfold download_single_file
  rw [if_neg (by simp [hidx]), if_neg (by simp [hloc])]
  rw [download_attempts_all_fail env retry_times cos_key local_path file_size etag
        index hfail retry_times 0 0 [] (by omega)]
  simp [List.range_eq_range']

/-- Environment whose transfer fails on attempt 0 and succeeds on attempt 1. -/
def wEnvOnce : DownloadEnv :=
  { transfer := fun k => k == 1, md5 := "m", mtimeIso := "t", now := "d" }

theorem retry_success_after_failures_witness :
    download_single_file wEnvOnce 3 [] "a.txt" "downloads/a.txt" none 10 "x"
      = ("success",
         add_file wEnvOnce.now [] "downloads/a.txt" 10 wEnvOnce.mtimeIso
           wEnvOnce.md5 "a.txt" "x",
         2, (List.range 1).map (fun k => 2 ^ k)) :=
  retry_success_after_failures wEnvOnce 3 [] "a.txt" "downloads/a.txt" none 10 "x" 2
    (by decide) (by decide) (by decide) (by decide)
    (fun k hk => by interval_cases k; decide) (by decide)

/-- Environment whose transfer fails on every attempt. -/
def wEnvFail : DownloadEnv :=
  { transfer := fun _ => false, md5 := "m", mtimeIso := "t", now := "d" }

theorem retry_exhaustion_failed_witness :
    download_single_file wEnvFail 3 [] "a.txt" "downloads/a.txt" none 10 "x"
      = ("failed", [], 3, (List.range 2).map (fun k => 2 ^ k)) :=
  retry_exhaustion_failed wEnvFail 3 [] "a.txt" "downloads/a.txt" none 10 "x"
    (by decide) (by decide) (fun k => rfl)

/-! ### Batch aggregation (cos_enhanced_downloader.py 266-355, 386-417) -/

/-- The outcome `future.result()` delivers to the aggregation loop of
`download_objects` for one completed task: one of the three result
strings of `_download_single_file`; `raisedCaught` when it throws one of
the exception types the loop's handler at line 334 names (OSError,
ValueError), converted into a failure for that task alone; or
`raisedUncaught` when it throws any other type (e.g. sqlite3.Error from
the index calls inside the worker), which no handler in
`download_objects` catches. -/
inductive TaskResult
  | success
  | failed
  | skipped
  | raisedCaught
  | raisedUncaught
  deriving DecidableEq, Repr

/-- One pass of the result-aggregation loop of `download_objects`
(lines 324-345) over the completed task outcomes in completion order:
accumulate the (success_count, failed_count, skipped_count) counters;
an uncaught worker exception propagates out of the loop, aborting the
batch before any counts are returned (`none`). -/
def tallyGo : List TaskResult → Nat × Nat × Nat → Option (Nat × Nat × Nat)
  | [], c => some c
  | r :: rest, c =>
    match r with
    | .success => tallyGo rest (c.1 + 1, c.2.1, c.2.2)
    | .failed => tallyGo rest (c.1, c.2.1 + 1, c.2.2)
    | .skipped => tallyGo rest (c.1, c.2.1, c.2.2 + 1)
    | .raisedCaught => tallyGo rest (c.1, c.2.1 + 1, c.2.2)
    | .raisedUncaught => none

/-- The aggregation of `download_objects`, started from zeroed counters. -/
def download_objects_tally (results : List TaskResult) : Option (Nat × Nat × Nat) :=
  tallyGo results (0, 0, 0)

/-- The `total` field of the persisted report
(`_generate_download_report`, lines 386-417). -/
def report_total (success_count failed_count skipped_count : Nat) : Nat :=
  success_count + failed_count + skipped_count

theorem download_attempts_result_mem (env : DownloadEnv) (retry_times : Nat)
    (cos_key : String) (local_path : String) (file_size : Nat) (etag : String) :
    ∀ (attempt : Nat) (index : List IndexRecord) (calls : Nat) (sleeps : List Nat),
      (download_attempts env retry_times cos_key local_path file_size etag
          attempt index calls sleeps).1 = "success" ∨
      (download_attempts env retry_times cos_key local_path file_size etag
          attempt index calls sleeps).1 = "failed" := by
  intro attempt
  have H : ∀ n attempt, retry_times - attempt = n →
      ∀ (index : List IndexRecord) (calls : Nat) (sleeps : List Nat),
      (download_attempts env retry_times cos_key local_path file_size etag
          attempt index calls sleeps).1 = "success" ∨
      (download_attempts env retry_times cos_key local_path file_size etag
          attempt index calls sleeps).1 = "failed" := by
    intro n
    induction n with
    | zero =>
      intro attempt hn index calls sleeps
      unfold download_attempts
      rw [dif_neg (by omega)]
      right
      rfl
    | succ n ih =>
      intro attempt hn index calls sleeps
      unfold download_attempts
      rw [dif_pos (by omega)]
      by_cases ht : env.transfer attempt
      · rw [if_pos ht]
        left
        rfl
      · rw [if_neg ht]
        by_cases hlast : attempt < retry_times - 1
        · rw [if_pos hlast]
          exact ih (attempt + 1) (by omega) index (calls + 1) (sleeps ++ [2 ^ attempt])
        · rw [if_neg hlast]
          right
          rfl
  exact H (retry_times - attempt) attempt rfl

theorem tallyGo_sum : ∀ (results : List TaskResult) (c : Nat × Nat × Nat),
    TaskResult.raisedUncaught ∉ results →
    ∃ s f sk, tallyGo results c = some (s, f, sk) ∧
      s + f + sk = c.1 + c.2.1 + c.2.2 + results.length := by
  intro results
  induction results with
  | nil =>
    intro c _
    exact ⟨c.1, c.2.1, c.2.2, rfl, by simp⟩
  | cons r rest ih =>
    intro c h
    have hr : r ≠ TaskResult.raisedUncaught :=
      fun he => h (he ▸ List.mem_cons_self r rest)
    have hrest : TaskResult.raisedUncaught ∉ rest :=
      fun hm => h (List.mem_cons_of_mem r hm)
    cases r with
    | success =>
      obtain ⟨s, f, sk, heq, hsum⟩ := ih (c.1 + 1, c.2.1, c.2.2) hrest
      exact ⟨s, f, sk, heq, by simp at hsum; simp [hsum]; omega⟩
    | failed =>
      obtain ⟨s, f, sk, heq, hsum⟩ := ih (c.1, c.2.1 + 1, c.2.2) hrest
      exact ⟨s, f, sk, heq, by simp at hsum; simp [hsum]; omega⟩
    | skipped =>
      obtain ⟨s, f, sk, heq, hsum⟩ := ih (c.1, c.2.1, c.2.2 + 1) hrest
      exact ⟨s, f, sk, heq, by simp at hsum; simp [hsum]; omega⟩
    | raisedCaught =>
      obtain ⟨s, f, sk, heq, hsum⟩ := ih (c.1, c.2.1 + 1, c.2.2) hrest
      exact ⟨s, f, sk, heq, by simp at hsum; simp [hsum]; omega⟩
    | raisedUncaught => exact absurd rfl hr

/-- C6 counterexample: a single submitted object whose worker raises an
exception type the aggregation loop's handler does not name (e.g.
sqlite3.Error) aborts the loop — the batch of K = 1 produces no counts
and no report at all, so success + failed + skipped = K fails and the
object's terminal state is unreported. -/
theorem download_tally_aborts :
    download_objects_tally [TaskResult.raisedUncaught] = none := rfl

/-- C6 amended: for every completion sequence of a batch of K submitted
objects in which each worker ends in a result string or an exception of
the caught types (OSError, ValueError) — the latter converted to a
failure for that task alone — the aggregation returns counts with
success + failed + skipped = K and the persisted report's total equals
that same sum; a worker exception of any other type instead aborts the
batch (see the counterexample).  Moreover a download task itself can
only ever end in one of the three terminal strings. -/
theorem download_counts_complete (results : List TaskResult)
    (h : TaskResult.raisedUncaught ∉ results) :
    (∃ s f sk, download_objects_tally results = some (s, f, sk) ∧
      s + f + sk = results.length ∧ report_total s f sk = results.length) ∧
    (∀ (env : DownloadEnv) (retry_times : Nat) (index : List IndexRecord)
        (cos_key local_path : String) (localSize : Option Nat)
        (file_size : Nat) (etag : String),
      (download_single_file env retry_times index cos_key local_path localSize
          file_size etag).1 = "success" ∨
      (download_single_file env retry_times index cos_key local_path localSize
          file_size etag).1 = "failed" ∨
      (download_single_file env retry_times index cos_key local_path localSize
          file_size etag).1 = "skipped") := by
  refine ⟨?_, ?_⟩
  · obtain ⟨s, f, sk, heq, hsum⟩ := tallyGo_sum results (0, 0, 0) h
    exact ⟨s, f, sk, heq, by simpa using hsum, by simpa [report_total] using hsum⟩
  intro env retry_times index cos_key local_path localSize file_size etag
  unfold download_single_file
  by_cases h1 : file_exists index cos_key etag
  · rw [if_pos h1]
    right; right; rfl
  · rw [if_neg h1]
    by_cases h2 : (localSize == some file_size) = true
    · rw [if_pos h2]
      right; right; rfl
    · rw [if_neg h2]
      rcases download_attempts_result_mem env retry_times cos_key local_path
          file_size etag 0 index 0 [] with h | h
      · left; exact h
      · right; left; exact h

theorem download_counts_complete_witness :
    ∃ s f sk, download_objects_tally
        [TaskResult.success, TaskResult.raisedCaught, TaskResult.skipped]
        = some (s, f, sk) ∧ s + f + sk = 3 ∧ report_total s f sk = 3 :=
  (download_counts_complete
    [TaskResult.success, TaskResult.raisedCaught, TaskResult.skipped]
    (by decide)).1

/-! ### Post-listing filters (cos_enhanced_downloader.py 213-264) -/

/-- `Path(name).name` for a path-like key: the last nonempty component. -/
def pathName (s : List Char) : List Char :=
  ((s.reverse.dropWhile (· == '/')).takeWhile (· != '/')).reverse

/-- `Path(key).suffix` as pathlib computes it: the part of the final
component from its last dot on, empty when the dot is absent, first, or
last. -/
def pathSuffix (s : String) : String :=
  let name := pathName s.data
  let tl := name.reverse.takeWhile (· != '.')
  if tl.length = name.length then ""
  else if tl.length = 0 then ""
  else if name.length - 1 - tl.length = 0 then ""
  else String.mk ('.' :: tl.reverse)

/-- Python `s.lower()` (ASCII case fold, which is all object keys use). -/
def lowerStr (s : String) : String :=
  String.mk (s.data.map Char.toLower)

/-- Python truthiness of an `int | None` parameter: `None` and `0` are
falsy. -/
def optSizeTruthy : Option Nat → Bool
  | none => false
  | some n => n != 0

/-- Python truthiness of a `list[str] | None` parameter: `None` and `[]`
are falsy. -/
def optExtsTruthy : Option (List String) → Bool
  | none => false
  | some l => !l.isEmpty

/-- The per-object filter of `list_objects` (cos_enhanced_downloader.py
lines 253-261): each `continue` branch guarded by the truthiness of its
configured value. -/
def keep_object (extensions : Option (List String))
    (min_size max_size : Option Nat) (o : RemoteObject) : Bool :=
  if optExtsTruthy extensions
      && !((extensions.getD []).contains (lowerStr (pathSuffix o.key))) then false
  else if optSizeTruthy min_size && decide (o.size < min_size.getD 0) then false
  else if optSizeTruthy max_size && decide (o.size > max_size.getD 0) then false
  else true

/-- The filtering pass of `list_objects` over the fetched objects. -/
def apply_filters (objs : List RemoteObject) (extensions : Option (List String))
    (min_size max_size : Option Nat) : List RemoteObject :=
  objs.filter (keep_object extensions min_size max_size)

/-- C10: a zero `min_size` or `max_size` disables that size bound rather
than excluding objects, and an empty extensions list disables extension
filtering, because each post-filter applies only when its configured
value is truthy; with all three disabled every object is kept. -/
theorem zero_filters_disabled (objs : List RemoteObject)
    (extensions : Option (List String)) (min_size max_size : Option Nat)
    (o : RemoteObject) :
    keep_object extensions (some 0) max_size o
        = keep_object extensions none max_size o ∧
    keep_object extensions min_size (some 0) o
        = keep_object extensions min_size none o ∧
    keep_object (some []) min_size max_size o
        = keep_object none min_size max_size o ∧
    apply_filters objs (some []) (some 0) (some 0) = objs := by
  refine ⟨?_, ?_, ?_, ?_⟩
  · simp [keep_object, optSizeTruthy]
  · simp [keep_object, optSizeTruthy]
  · simp [keep_object, optExtsTruthy]
  · simp [apply_filters, keep_object, optSizeTruthy, optExtsTruthy]

/-! ### Paginated listing (sync_detector.py 20-55,
cos_enhanced_downloader.py 190-264) -/

/-- One page response of the object-store client: `Contents`,
`IsTruncated` and `NextMarker` fields, each possibly absent.  The COS SDK
delivers `IsTruncated` as the string "true"/"false". -/
structure ListResponse where
  contents : Option (List RemoteObject)
  isTruncated : Option String
  nextMarker : Option String
  deriving DecidableEq, Repr

/-- Outcome of one `client.list_objects` call.  The two error
constructors keep the exception type, because the two listers handle
them differently: `errService` models a raised `CosServiceError`,
`errEnv` a raised `OSError` / `IOError` / `ValueError`; `ok` is a
returned page. -/
inductive ClientResult
  | errService
  | errEnv
  | ok (resp : ListResponse)
  deriving DecidableEq, Repr

/-- Python truthiness of `response.get("IsTruncated", False)` when the
value, if present, is a string: absent and the empty string are falsy. -/
def truthyStr : Option String → Bool
  | none => false
  | some s => s != ""

/-- Result of `SyncDetector.list_remote_objects`: `done` carries the
returned objects and the trace of markers passed to the client, in
request order; `raised` stands for a `CosServiceError` propagating out
of the method, since the `except` clause at sync_detector.py line 51
catches only `(OSError, IOError, ValueError)`; `stuck` stands for a run
that does not settle (fuel exhausted, or the uncaught
KeyError/IndexError that `response["Contents"][-1]["Key"]` raises on a
truncated page with no contents). -/
inductive SyncListing
  | done (objects : List RemoteObject) (trace : List String)
  | raised
  | stuck
  deriving DecidableEq, Repr

/-- The `while True` loop of `SyncDetector.list_remote_objects`
(sync_detector.py lines 36-55): extend the accumulator when `Contents`
is present; when `IsTruncated` is truthy set the marker to the LAST KEY
OF THE PAGE (`response["Contents"][-1]["Key"]`, line 47), otherwise
break; a caught `(OSError, IOError, ValueError)` breaks the loop,
returning what was gathered, while a `CosServiceError` is caught by
nothing in this method and propagates. -/
def list_remote_objects_go (client : String → ClientResult) :
    Nat → String → List RemoteObject → List String → SyncListing
  | 0, _, _, _ => .stuck
  | fuel + 1, marker, acc, trace =>
    match client marker with
    | .errService => .raised
    | .errEnv => .done acc (trace ++ [marker])
    | .ok resp =>
      let acc2 := match resp.contents with
        | some cs => acc ++ cs
        | none => acc
      if truthyStr resp.isTruncated then
        match resp.contents with
        | some cs =>
          match cs.getLast? with
          | some lastObj =>
            list_remote_objects_go client fuel lastObj.key acc2 (trace ++ [marker])
          | none => .stuck
        | none => .stuck
      else .done acc2 (trace ++ [marker])

/-- `SyncDetector.list_remote_objects`, starting from the empty marker. -/
def list_remote_objects (client : String → ClientResult) (fuel : Nat) : SyncListing :=
  list_remote_objects_go client fuel "" [] []

/-- Result of `EnhancedCOSDownloader._list_objects_paginated`: `ok` with
objects and marker trace, `raised` when a client exception escapes this
helper to `list_objects`, `stuck` when the run does not settle (fuel
exhausted, or the uncaught KeyError of `response["NextMarker"]` on a
truncated page without one). -/
inductive PagedListing
  | ok (objects : List RemoteObject) (trace : List String)
  | raised
  | stuck
  deriving DecidableEq, Repr

/-- `EnhancedCOSDownloader._list_objects_paginated`
(cos_enhanced_downloader.py lines 190-211): extend when `Contents` is
present; when `IsTruncated == "true"` set the marker to the
store-supplied `response["NextMarker"]`, otherwise break; this helper
has no handler, so an exception of either kind propagates to the
caller. -/
def list_objects_paginated_go (client : String → ClientResult) :
    Nat → String → List RemoteObject → List String → PagedListing
  | 0, _, _, _ => .stuck
  | fuel + 1, marker, acc, trace =>
    match client marker with
    | .errService => .raised
    | .errEnv => .raised
    | .ok resp =>
      let acc2 := acc ++ resp.contents.getD []
      if resp.isTruncated == some "true" then
        match resp.nextMarker with
        | some nm => list_objects_paginated_go client fuel nm acc2 (trace ++ [marker])
        | none => .stuck
      else .ok acc2 (trace ++ [marker])

/-- `EnhancedCOSDownloader.list_objects` (cos_enhanced_downloader.py
lines 213-264): run the paginated enumeration from the empty marker; a
caught exception yields the EMPTY list (line 251), a normal run is
post-filtered; `none` stands for a run that does not return. -/
def list_objects (client : String → ClientResult) (fuel : Nat)
    (extensions : Option (List String)) (min_size max_size : Option Nat) :
    Option (List RemoteObject) :=
  match list_objects_paginated_go client fuel "" [] [] with
  | .ok objs _ => some (apply_filters objs extensions min_size max_size)
  | .raised => some []
  | .stuck => none

/-- Page-1 object for the listing counterexamples. -/
def wObjP1a : RemoteObject := { key := "k1", size := 1, etag := "e1" }

/-- Page-1 object for the listing counterexamples. -/
def wObjP1b : RemoteObject := { key := "k2", size := 2, etag := "e2" }

/-- Page-2 object for the listing counterexamples. -/
def wObjP2 : RemoteObject := { key := "k9", size := 3, etag := "e3" }

/-- A store whose first page is truncated with next-marker "token-xyz",
different from the page's last key "k2"; any other marker returns the
final page. -/
def wClient : String → ClientResult := fun m =>
  if m = "" then
    .ok { contents := some [wObjP1a, wObjP1b], isTruncated := some "true",
          nextMarker := some "token-xyz" }
  else
    .ok { contents := some [wObjP2], isTruncated := none, nextMarker := none }

/-- C3 counterexample: on the truncated first page of `wClient`,
`SyncDetector.list_remote_objects` issues its second request with marker
"k2" — the last key observed in the page — although the store supplied
the continuation token "token-xyz"; so not every paginated listing
advances to the store-supplied token. -/
theorem sync_lister_uses_last_key :
    list_remote_objects wClient 5
      = .done [wObjP1a, wObjP1b, wObjP2] ["", "k2"] ∧
    wClient "" = .ok { contents := some [wObjP1a, wObjP1b],
                       isTruncated := some "true",
                       nextMarker := some "token-xyz" } ∧
    ("k2" : String) ≠ "token-xyz" := by
  refine ⟨by decide, by decide, by decide⟩

/-- C3 amended: the enhanced downloader's `_list_objects_paginated` does
advance the marker for the next request to the store-supplied
`NextMarker` verbatim — after a truncated page the run continues exactly
from that token — while `SyncDetector.list_remote_objects` advances to
the last observed key instead (see the counterexample). -/
theorem paginated_marker_advances (client : String → ClientResult)
    (fuel : Nat) (marker : String) (acc : List RemoteObject)
    (trace : List String) (resp : ListResponse) (nm : String)
    (hresp : client marker = .ok resp)
    (htr : resp.isTruncated = some "true")
    (hnm : resp.nextMarker = some nm) :
    list_objects_paginated_go client (fuel + 1) marker acc trace
      = list_objects_paginated_go client fuel nm (acc ++ resp.contents.getD [])
          (trace ++ [marker]) := by
  have step : list_objects_paginated_go client (fuel + 1) marker acc trace
      = match client marker with
        | .errService => .raised
        | .errEnv => .raised
        | .ok resp =>
          let acc2 := acc ++ resp.contents.getD []
          if resp.isTruncated == some "true" then
            match resp.nextMarker with
            | some nm2 =>
              list_objects_paginated_go client fuel nm2 acc2 (trace ++ [marker])
            | none => .stuck
          else .ok acc2 (trace ++ [marker]) := rfl
  rw [step, hresp]
  simp only [htr, hnm]
  rw [if_pos (by simp)]

theorem paginated_marker_advances_witness :
    list_objects_paginated_go wClient 5 "" [] []
      = list_objects_paginated_go wClient 4 "token-xyz"
          ([] ++ (some [wObjP1a, wObjP1b] : Option (List RemoteObject)).getD [])
          ([] ++ [""]) :=
  paginated_marker_advances wClient 4 "" [] []
    { contents := some [wObjP1a, wObjP1b], isTruncated := some "true",
      nextMarker := some "token-xyz" }
    "token-xyz" (by decide) rfl rfl

/-- A store whose first page is truncated and whose every other request
raises an OSError/IOError/ValueError. -/
def wErrClient : String → ClientResult := fun m =>
  if m = "" then
    .ok { contents := some [wObjP1a, wObjP1b], isTruncated := some "true",
          nextMarker := some "t2" }
  else
    .errEnv

/-- A store whose first page is truncated and whose every other request
raises a CosServiceError. -/
def wSvcErrClient : String → ClientResult := fun m =>
  if m = "" then
    .ok { contents := some [wObjP1a, wObjP1b], isTruncated := some "true",
          nextMarker := some "t2" }
  else
    .errService

/-- C7 counterexample: the error on page 2 of `wErrClient` makes
`EnhancedCOSDownloader.list_objects` return the EMPTY list although the
two objects of page 1 had been accumulated before the error — an empty
result, not the partial one the claim requires; and with a service
error (`wSvcErrClient`) `SyncDetector.list_remote_objects` does not
return a partial result either: the CosServiceError escapes its
`except (OSError, IOError, ValueError)` clause and is raised to the
caller. -/
theorem list_objects_error_discards_partial :
    (list_objects wErrClient 5 none none none = some [] ∧
     [wObjP1a, wObjP1b] ≠ ([] : List RemoteObject)) ∧
    list_remote_objects wSvcErrClient 5 = .raised := by
  refine ⟨⟨by decide, by decide⟩, by decide⟩

/-- C7 amended: on an OSError/IOError/ValueError
`SyncDetector.list_remote_objects` returns the objects accumulated so
far without raising, but a CosServiceError escapes its handler and
propagates; in the enhanced downloader an error of either kind escapes
`_list_objects_paginated`, and `list_objects` catches it but replaces
the accumulation with the empty list (not raising to its caller). -/
theorem listing_error_recovery (client : String → ClientResult)
    (fuel : Nat) (marker : String) (acc : List RemoteObject)
    (trace : List String) (extensions : Option (List String))
    (min_size max_size : Option Nat) :
    (client marker = .errEnv →
      list_remote_objects_go client (fuel + 1) marker acc trace
        = .done acc (trace ++ [marker])) ∧
    (client marker = .errService →
      list_remote_objects_go client (fuel + 1) marker acc trace = .raised) ∧
    (client marker = .errEnv →
      list_objects_paginated_go client (fuel + 1) marker acc trace = .raised) ∧
    (client marker = .errService →
      list_objects_paginated_go client (fuel + 1) marker acc trace = .raised) ∧
    (list_objects_paginated_go client fuel "" [] [] = .raised →
      list_objects client fuel extensions min_size max_size = some []) := by
  refine ⟨?_, ?_, ?_, ?_, ?_⟩
  · intro herr
    unfold list_remote_objects_go
    rw [herr]
  · intro herr
    unfold list_remote_objects_go
    rw [herr]
  · intro herr
    unfold list_objects_paginated_go
    rw [herr]
  · intro herr
    unfold list_objects_paginated_go
    rw [herr]
  · intro hraised
    unfold list_objects
    rw [hraised]

theorem listing_error_recovery_witness :
    list_remote_objects_go wErrClient 3 "t2" [wObjP1a, wObjP1b] [""]
      = .done [wObjP1a, wObjP1b] ([""] ++ ["t2"]) ∧
    list_remote_objects_go wSvcErrClient 3 "t2" [wObjP1a, wObjP1b] [""]
      = .raised :=
  ⟨(listing_error_recovery wErrClient 2 "t2" [wObjP1a, wObjP1b] [""]
      none none none).1 (by decide),
   (listing_error_recovery wSvcErrClient 2 "t2" [wObjP1a, wObjP1b] [""]
      none none none).2.1 (by decide)⟩

/-! ### Key-to-local-path mapping (cos_enhanced_downloader.py 296-302) -/

/-- `cos_key.replace("/", "_")` (cos_enhanced_downloader.py line 299):
the separator substitution is a character map since the pattern is a
single character. -/
def flatten_key (key : String) : String :=
  String.mk (key.data.map (fun c => if c = '/' then '_' else c))

/-- `output_path / cos_key.replace("/", "_")`: the local destination the
enhanced downloader derives for an object key. -/
def key_local_path (output_dir : String) (key : String) : String :=
  output_dir ++ "/" ++ flatten_key key

/-- C8 counterexample: the distinct keys "a/b" and "a_b" map to the same
local destination path, so the separator-substitution mapping is not
collision-free over arbitrary distinct keys. -/
theorem key_local_path_collision :
    key_local_path "downloads" "a/b" = key_local_path "downloads" "a_b" ∧
    ("a/b" : String) ≠ "a_b" := by
  refine ⟨by decide, by decide⟩

theorem flatten_chars_inj :
    ∀ (l1 l2 : List Char), '_' ∉ l1 → '_' ∉ l2 →
      l1.map (fun c => if c = '/' then '_' else c)
        = l2.map (fun c => if c = '/' then '_' else c) → l1 = l2 := by
  intro l1
  induction l1 with
  | nil =>
    intro l2 _ _ h
    cases l2 with
    | nil => rfl
    | cons d ds => simp at h
  | cons c cs ih =>
    intro l2 h1 h2 h
    cases l2 with
    | nil => simp at h
    | cons d ds =>
      simp only [List.map_cons, List.cons.injEq] at h
      have hc : c ≠ '_' := fun hce => h1 (hce ▸ List.mem_cons_self c cs)
      have hd : d ≠ '_' := fun hde => h2 (hde ▸ List.mem_cons_self d ds)
      have hcd : c = d := by
        by_cases hcs : c = '/'
        · by_cases hds : d = '/'
          · rw [hcs, hds]
          · exfalso
            rw [if_pos hcs, if_neg hds] at h
            exact hd h.1.symm
        · by_cases hds : d = '/'
          · exfalso
            rw [if_neg hcs, if_pos hds] at h
            exact hc h.1
          · rw [if_neg hcs, if_neg hds] at h
            exact h.1
      refine hcd ▸ congrArg (List.cons c) ?_
      exact ih ds (fun hm => h1 (List.mem_cons_of_mem c hm))
        (fun hm => h2 (List.mem_cons_of_mem d hm)) h.2

/-- C8 amended: the mapping is deterministic (a function of the key
alone), and it is collision-free for any two distinct keys NEITHER OF
WHICH CONTAINS AN UNDERSCORE: under that restriction equal destination
paths force equal keys.  Without the restriction it collides (see the
counterexample "a/b" versus "a_b"). -/
theorem key_local_path_injective (output_dir : String) (k1 k2 : String)
    (h1 : '_' ∉ k1.data) (h2 : '_' ∉ k2.data)
    (heq : key_local_path output_dir k1 = key_local_path output_dir k2) :
    k1 = k2 := by
  have hdata : (key_local_path output_dir k1).data
      = (key_local_path output_dir k2).data := congrArg String.data heq
  unfold key_local_path flatten_key at hdata
  simp only [String.data_append] at hdata
  have hmap := List.append_cancel_left hdata
  have := flatten_chars_inj k1.data k2.data h1 h2 (by simpa using hmap)
  cases k1
  cases k2
  exact congrArg String.mk (by simpa using this)

theorem key_local_path_injective_witness :
    ("voice/x.mp3" : String) = "voice/x.mp3" :=
  key_local_path_injective "downloads" "voice/x.mp3" "voice/x.mp3"
    (by decide) (by decide) rfl

end CosSync
